import Mathlib

/-!
Shallow embedding of `folly::SSLContext` (folly/io/async/SSLContext.{h,cpp}).

Native OpenSSL objects are abstracted: an `X509` certificate and an
`EVP_PKEY` private key are identified by a `Nat` tag, a PEM buffer by the
list of certificates its well-formed PEM blocks parse to, and wire byte
buffers by `List Nat` (one `Nat` per byte).  Native calls whose outcome
depends only on OpenSSL (file parsing, `SSL_CTX_check_private_key`) are
passed in as explicit parameters.  Fatal `CHECK` macro failures and thrown
exceptions are modelled with `Option`/`Except`.
-/

namespace FollySSL

/-- SSLContext.h: enum SSLVersion. -/
inductive SSLVersion where
  | SSLv2
  | SSLv3
  | TLSv1
  | TLSv1_2
  | TLSv1_3
deriving DecidableEq

/-- SSLContext.h: enum SSLVerifyPeerEnum (legacy unified verification enum). -/
inductive SSLVerifyPeerEnum where
  | USE_CTX
  | VERIFY
  | VERIFY_REQ_CLIENT_CERT
  | NO_VERIFY
deriving DecidableEq

/-- SSLContext.h: enum class VerifyClientCertificate. -/
inductive VerifyClientCertificate where
  | ALWAYS
  | IF_PRESENTED
  | DO_NOT_REQUEST
deriving DecidableEq

/-- SSLContext.h: enum class VerifyServerCertificate. -/
inductive VerifyServerCertificate where
  | IF_PRESENTED
  | IGNORE_VERIFY_RESULT
deriving DecidableEq

/-- OpenSSL constant SSL_VERIFY_NONE. -/
def SSL_VERIFY_NONE : Nat := 0

/-- OpenSSL constant SSL_VERIFY_PEER. -/
def SSL_VERIFY_PEER : Nat := 1

/-- OpenSSL constant SSL_VERIFY_FAIL_IF_NO_PEER_CERT. -/
def SSL_VERIFY_FAIL_IF_NO_PEER_CERT : Nat := 2

/-- OpenSSL constant SSL_VERIFY_CLIENT_ONCE. -/
def SSL_VERIFY_CLIENT_ONCE : Nat := 4

/-- SSLContext.h: struct NextProtocolsItem (a weighted group of protocol
names; each name is a byte string, modelled `List Nat`). -/
structure NextProtocolsItem where
  weight : Int
  protocols : List (List Nat)
deriving DecidableEq

/-- Observable state of a `folly::SSLContext` object: its member fields,
with native handles abstracted.  `alpnSelectCbRegistered` models whether
`SSL_CTX_set_alpn_select_cb` currently has a non-null callback installed,
and `alpnProtos` the buffer last passed to `SSL_CTX_set_alpn_protos`
(`[]` meaning cleared).  Field defaults are the in-class member
initializers of SSLContext.h (a default-constructed `std::unique_ptr` is
null, hence `sslAcceptRunner := none`). -/
structure SSLContextState where
  verifyPeer : SSLVerifyPeerEnum := SSLVerifyPeerEnum.NO_VERIFY
  verifyClient : VerifyClientCertificate := VerifyClientCertificate.DO_NOT_REQUEST
  verifyServer : VerifyServerCertificate := VerifyServerCertificate.IGNORE_VERIFY_RESULT
  checkPeerName : Bool := false
  peerFixedName : List Char := []
  cert : Option Nat := none
  chain : List Nat := []
  key : Option Nat := none
  clientCAList : Option Nat := none
  advertisedNextProtocols : List (List Nat) := []
  advertisedNextProtocolWeights : List Int := []
  nextProtocolDistribution : List Int := []
  alpnSelectCbRegistered : Bool := false
  alpnProtos : List Nat := []
  sslAcceptRunner : Option Nat := none
deriving DecidableEq

/-- A fresh state with all fields at their SSLContext.h member-initializer
defaults. -/
def baseState : SSLContextState := {}

/-- SSLContext.cpp: `getVerificationMode(const VerifyClientCertificate&)`. -/
def getVerificationModeClient : VerifyClientCertificate → Nat
  | VerifyClientCertificate.ALWAYS =>
      SSL_VERIFY_PEER ||| SSL_VERIFY_FAIL_IF_NO_PEER_CERT
  | VerifyClientCertificate.IF_PRESENTED => SSL_VERIFY_PEER
  | VerifyClientCertificate.DO_NOT_REQUEST => SSL_VERIFY_NONE

/-- SSLContext.cpp: `getVerificationMode(const VerifyServerCertificate&)`. -/
def getVerificationModeServer : VerifyServerCertificate → Nat
  | VerifyServerCertificate.IF_PRESENTED => SSL_VERIFY_PEER
  | VerifyServerCertificate.IGNORE_VERIFY_RESULT => SSL_VERIFY_NONE

/-- SSLContext.cpp: `getVerificationMode(const SSLVerifyPeerEnum&)`.
The function starts with `CHECK(verifyPeer != SSLVerifyPeerEnum::USE_CTX)`,
a fatal abort, modelled as `none`. -/
def getVerificationModePeer : SSLVerifyPeerEnum → Option Nat
  | SSLVerifyPeerEnum.USE_CTX => none
  | SSLVerifyPeerEnum.VERIFY => some SSL_VERIFY_PEER
  | SSLVerifyPeerEnum.VERIFY_REQ_CLIENT_CERT =>
      some (SSL_VERIFY_PEER ||| SSL_VERIFY_FAIL_IF_NO_PEER_CERT)
  | SSLVerifyPeerEnum.NO_VERIFY => some SSL_VERIFY_NONE

/-- SSLContext.cpp: `getVerificationMode()` — the bitwise OR of the modes
resolved from the three stored verification fields. -/
def getVerificationMode (st : SSLContextState) : Option Nat :=
  (getVerificationModePeer st.verifyPeer).map fun p =>
    getVerificationModeClient st.verifyClient |||
      getVerificationModeServer st.verifyServer ||| p

/-- SSLContext.h: `needsPeerVerification()` returns
`getVerificationMode() != SSL_VERIFY_NONE`. -/
def needsPeerVerification (st : SSLContextState) : Option Bool :=
  (getVerificationMode st).map fun m => decide (m ≠ SSL_VERIFY_NONE)

/-- SSLContext.cpp: `setVerificationOption(const SSLVerifyPeerEnum&)`;
its `CHECK(verifyPeer != SSLVerifyPeerEnum::USE_CTX)` abort is `none`. -/
def setVerificationOptionPeer (verifyPeer : SSLVerifyPeerEnum)
    (st : SSLContextState) : Option SSLContextState :=
  if verifyPeer = SSLVerifyPeerEnum.USE_CTX then none
  else some { st with verifyPeer := verifyPeer }

/-- C `toupper` restricted to ASCII (the only case the matcher exercises):
maps a lowercase letter to its uppercase form and fixes everything else. -/
def toUpperAscii (c : Char) : Char :=
  if 'a' ≤ c ∧ c ≤ 'z' then Char.ofNat (c.toNat - 32) else c

/-- SSLContext.cpp: the loop body of `matchName`.  First argument is the
remaining pattern (`pattern[i..]`, `size - i` chars left), second the
remaining host (`host[j..]`, terminated where the C string has its NUL).
The loop exits when either side is exhausted or on `break`; the result is
`i == size && host[j] == 0`. -/
def matchLoop : List Char → List Char → Bool
  | [], [] => true
  | [], _ :: _ => false
  | _ :: _, [] => false
  | p :: ps, h :: hs =>
    if toUpperAscii p = toUpperAscii h then matchLoop ps hs
    else if p = '*' then
      matchLoop ps ((h :: hs).dropWhile fun c => c ≠ '.')
    else false

/-- SSLContext.cpp: `matchName(host, pattern, size)` with
`size = pattern.length` (pattern given as a char list). -/
def matchName (host pattern : List Char) : Bool :=
  matchLoop pattern host

/-- The suffixes of `host` a `*` may leave behind: it consumes zero or
more characters up to (but not including) the next `.`. -/
def starSuffixes : List Char → List (List Char)
  | [] => [[]]
  | h :: hs => (h :: hs) :: (if h = '.' then [] else starSuffixes hs)

/-- Declarative single-level wildcard matching, written from the spec's
words (§4.6 `matchHostnamePattern`): the pattern consumes exactly the whole
host, comparing case-insensitively, where each `*` may match zero or more
host characters up to (but not including) the next `.`.  First argument is
the pattern, second the host. -/
def specWildcardMatch : List Char → List Char → Bool
  | [], host => host.isEmpty
  | p :: ps, host =>
    if p = '*' then
      (starSuffixes host).any (specWildcardMatch ps)
    else
      match host with
      | [] => false
      | h :: hs =>
          decide (toUpperAscii p = toUpperAscii h) && specWildcardMatch ps hs

/-- SSLContext.cpp: `constexpr size_t kMaxCertChain = 64`. -/
def kMaxCertChain : Nat := 64

/-- SSLContext.cpp: the chain-reading loop of `loadCertificateFromBufferPEM`.
`pending` is the list of certificates the remaining well-formed PEM blocks of
the buffer parse to; a failing `PEM_read_bio_X509` (no block left) clears the
error queue and ends the chain, and exhausting the loop bound throws. -/
def chainLoop : Nat → List Nat → List Nat → Except String (List Nat)
  | 0, _, _ =>
      Except.error "loadCertificateFromBufferPEM(): Too many certificates in chain"
  | _ + 1, chain, [] => Except.ok chain
  | fuel + 1, chain, c :: cs => chainLoop fuel (chain ++ [c]) cs

/-- SSLContext.cpp: `loadCertificateFromBufferPEM(cert)`.  The PEM buffer is
abstracted to the list of certificates its well-formed PEM blocks parse to
(an empty list makes the first `PEM_read_bio_X509` fail); the first
certificate becomes the leaf and the rest the chain. -/
def loadCertificateFromBufferPEM (certs : List Nat) (st : SSLContextState) :
    Except String SSLContextState :=
  match certs with
  | [] => Except.error "PEM_read_bio_X509"
  | leaf :: rest =>
    match chainLoop kMaxCertChain [] rest with
    | Except.error e => Except.error e
    | Except.ok ch => Except.ok { st with cert := some leaf, chain := ch }

/-- SSLContext.cpp: `loadPrivateKeyFromBufferPEM(pkey)`; the buffer is
abstracted to the key it parses to (`none` when `PEM_read_bio_PrivateKey`
fails). -/
def loadPrivateKeyFromBufferPEM (pkey : Option Nat) (st : SSLContextState) :
    Except String SSLContextState :=
  match pkey with
  | none => Except.error "PEM_read_bio_PrivateKey"
  | some k => Except.ok { st with key := some k }

/-- SSLContext.cpp: `isCertKeyPairValid()` returns
`SSL_CTX_check_private_key(ctx_) == 1`.  The OpenSSL check is abstracted by
the explicit cryptographic match relation `keyMatch`; it reports failure when
either piece is missing. -/
def isCertKeyPairValid (keyMatch : Nat → Nat → Bool) (st : SSLContextState) :
    Bool :=
  match st.cert, st.key with
  | some c, some k => keyMatch c k
  | _, _ => false

/-- SSLContext.cpp: `loadCertKeyPairFromBufferPEM(cert, pkey)` — loads both
pieces, then always checks the pair and throws on a mismatch. -/
def loadCertKeyPairFromBufferPEM (keyMatch : Nat → Nat → Bool)
    (certs : List Nat) (pkey : Option Nat) (st : SSLContextState) :
    Except String SSLContextState :=
  match loadCertificateFromBufferPEM certs st with
  | Except.error e => Except.error e
  | Except.ok st1 =>
    match loadPrivateKeyFromBufferPEM pkey st1 with
    | Except.error e => Except.error e
    | Except.ok st2 =>
      if isCertKeyPairValid keyMatch st2 then Except.ok st2
      else Except.error "SSL certificate and private key do not match"

/-- SSLContext.cpp: `loadCertificate(path, format)`.  `parsedCert` abstracts
the outcome of `SSL_CTX_use_certificate_chain_file` on the file at `path`
(`none` = native failure). -/
def loadCertificate (path format : Option String) (parsedCert : Option Nat)
    (st : SSLContextState) : Except String SSLContextState :=
  match path, format with
  | none, _ =>
      Except.error "loadCertificateChain: either <path> or <format> is nullptr"
  | _, none =>
      Except.error "loadCertificateChain: either <path> or <format> is nullptr"
  | some p, some fmt =>
    if fmt = "PEM" then
      match parsedCert with
      | none =>
          Except.error ("SSL_CTX_use_certificate_chain_file: " ++ p)
      | some c => Except.ok { st with cert := some c }
    else Except.error ("Unsupported certificate format: " ++ fmt)

/-- SSLContext.cpp: `loadPrivateKey(path, format)`; `parsedKey` abstracts
the outcome of `SSL_CTX_use_PrivateKey_file`. -/
def loadPrivateKey (path format : Option String) (parsedKey : Option Nat)
    (st : SSLContextState) : Except String SSLContextState :=
  match path, format with
  | none, _ =>
      Except.error "loadPrivateKey: either <path> or <format> is nullptr"
  | _, none =>
      Except.error "loadPrivateKey: either <path> or <format> is nullptr"
  | some _, some fmt =>
    if fmt = "PEM" then
      match parsedKey with
      | none => Except.error "SSL_CTX_use_PrivateKey_file"
      | some k => Except.ok { st with key := some k }
    else Except.error ("Unsupported private key format: " ++ fmt)

/-- SSLContext.cpp: `loadCertKeyPairFromFiles(certPath, keyPath, certFormat,
keyFormat)` — loads both pieces, then always checks the pair. -/
def loadCertKeyPairFromFiles (keyMatch : Nat → Nat → Bool)
    (certPath keyPath certFormat keyFormat : Option String)
    (parsedCert parsedKey : Option Nat) (st : SSLContextState) :
    Except String SSLContextState :=
  match loadCertificate certPath certFormat parsedCert st with
  | Except.error e => Except.error e
  | Except.ok st1 =>
    match loadPrivateKey keyPath keyFormat parsedKey st1 with
    | Except.error e => Except.error e
    | Except.ok st2 =>
      if isCertKeyPairValid keyMatch st2 then Except.ok st2
      else Except.error "SSL certificate and private key do not match"

/-- SSLContext.cpp: `loadTrustedCertificates(path)`; `nativeOk` abstracts
the outcome of `SSL_CTX_load_verify_locations`. -/
def loadTrustedCertificates (path : Option String) (nativeOk : Bool)
    (st : SSLContextState) : Except String SSLContextState :=
  match path with
  | none => Except.error "loadTrustedCertificates: <path> is nullptr"
  | some _ =>
    if nativeOk then Except.ok st
    else Except.error "SSL_CTX_load_verify_locations"

/-- SSLContext.cpp: `loadClientCAList(path)`; `loaded` abstracts the outcome
of `SSL_load_client_CA_file(path)`.  A failure is only logged: the call
returns normally and leaves the context untouched. -/
def loadClientCAList (loaded : Option Nat) (st : SSLContextState) :
    SSLContextState :=
  match loaded with
  | none => st
  | some cas => { st with clientCAList := some cas }

/-- Wire-encodes one group of protocol names: for each name, a length byte
followed by the name's bytes; `none` models the abort on a name of byte
length at least 256 (SSLContext.cpp, `protoLength >= 256`). -/
def encodeProtos : List (List Nat) → Option (List Nat)
  | [] => some []
  | p :: ps =>
    if 256 ≤ p.length then none
    else
      match encodeProtos ps with
      | none => none
      | some rest => some (p.length :: (p ++ rest))

/-- The per-item loop of `setRandomizedAdvertisedNextProtocols`: skips items
with an empty protocol list, wire-encodes the others, collecting the buffers
and the weights; `none` models the abort on an oversized name. -/
def buildItems : List NextProtocolsItem →
    Option (List (List Nat) × List Int)
  | [] => some ([], [])
  | item :: rest =>
    if item.protocols.isEmpty then buildItems rest
    else
      match encodeProtos item.protocols, buildItems rest with
      | some buf, some (bufs, ws) => some (buf :: bufs, item.weight :: ws)
      | _, _ => none

/-- SSLContext.cpp: `deleteNextProtocolsStrings()` — frees the wire buffers
and clears the two vectors. -/
def deleteNextProtocolsStrings (st : SSLContextState) : SSLContextState :=
  { st with
      advertisedNextProtocols := [],
      advertisedNextProtocolWeights := [] }

/-- SSLContext.cpp: `unsetNextProtocols()` — deletes the buffers, unregisters
the ALPN select callback and clears the published protos. -/
def unsetNextProtocols (st : SSLContextState) : SSLContextState :=
  { st with
      advertisedNextProtocols := [],
      advertisedNextProtocolWeights := [],
      alpnSelectCbRegistered := false,
      alpnProtos := [] }

/-- SSLContext.cpp: `setRandomizedAdvertisedNextProtocols(items)`.  The final
`SSL_CTX_set_alpn_protos` publish of the first buffer is assumed to report
success (its outcome depends only on OpenSSL allocation). -/
def setRandomizedAdvertisedNextProtocols (items : List NextProtocolsItem)
    (st : SSLContextState) : Bool × SSLContextState :=
  let st0 := unsetNextProtocols st
  if items.isEmpty then (false, st0)
  else
    match buildItems items with
    | none => (false, deleteNextProtocolsStrings st0)
    | some (bufs, ws) =>
      if ws.sum = 0 then (false, deleteNextProtocolsStrings st0)
      else
        (true,
          { st0 with
              advertisedNextProtocols := bufs,
              advertisedNextProtocolWeights := ws,
              nextProtocolDistribution := ws,
              alpnSelectCbRegistered := true,
              alpnProtos := bufs.headD [] })

/-- SSLContext.cpp: the comma-splicing loop of `getAdvertisedNextProtocols`:
starting past the first name, each length byte is overwritten with a comma
(byte 44) and skipped over. -/
def commify (alpns : List Nat) (i : Nat) : List Nat :=
  if h : i < alpns.length then
    commify (alpns.set i 44) (i + alpns.get ⟨i, h⟩ + 1)
  else alpns
termination_by alpns.length - i
decreasing_by simp [List.length_set]; omega

/-- Decodes one wire buffer back to a comma-joined byte string (the body of
`getAdvertisedNextProtocols` past the emptiness test). -/
def decodeAlpn : List Nat → List Nat
  | [] => []
  | len :: rest => commify rest len

/-- SSLContext.cpp: `getAdvertisedNextProtocols()` — empty string when no
advertisement is configured, otherwise the decoded first buffer. -/
def getAdvertisedNextProtocols (st : SSLContextState) : List Nat :=
  match st.advertisedNextProtocols with
  | [] => []
  | buf :: _ => decodeAlpn buf

/-- Some item of the input list contains a protocol name of byte length at
least 256. -/
def hasOversizedName (items : List NextProtocolsItem) : Bool :=
  items.any fun item => item.protocols.any fun p => 256 ≤ p.length

/-- Total weight of the kept groups: items with an empty protocol list are
skipped. -/
def keptWeightSum (items : List NextProtocolsItem) : Int :=
  ((items.filter fun item => !item.protocols.isEmpty).map
    NextProtocolsItem.weight).sum

/-- SSLContext.cpp: `SSLContext(SSLVersion version)` — rejects a TLS 1.3
minimum, otherwise installs the default inline `SSLAcceptRunner` (runner tag
0) on top of the member defaults.  `SSL_CTX_new` is assumed to succeed. -/
def mkSSLContext (version : SSLVersion) : Except String SSLContextState :=
  if version = SSLVersion.TLSv1_3 then
    Except.error "A minimum TLS version of TLS 1.3 is currently unsupported."
  else
    Except.ok { baseState with checkPeerName := false, sslAcceptRunner := some 0 }

/-- SSLContext.cpp: `SSLContext(SSL_CTX* ctx)` — only runs `setupCtx` and
bumps the native refcount; every member keeps its in-class default, so the
accept runner stays null. -/
def adoptSSLContext : SSLContextState := baseState

/-- SSLContext.h: the `sslAcceptRunner(std::unique_ptr<SSLAcceptRunner>)`
setter — a null runner is logged and ignored. -/
def sslAcceptRunnerSet (runner : Option Nat) (st : SSLContextState) :
    SSLContextState :=
  match runner with
  | none => st
  | some r => { st with sslAcceptRunner := some r }

/-- SSLContext.h: the `sslAcceptRunner()` accessor. -/
def sslAcceptRunnerGet (st : SSLContextState) : Option Nat :=
  st.sslAcceptRunner

lemma mem_starSuffixes_self (host : List Char) : host ∈ starSuffixes host := by
  cases host <;> simp [starSuffixes]

lemma specWildcardMatch_star (ps host : List Char) :
    specWildcardMatch ('*' :: ps) host =
      (starSuffixes host).any (specWildcardMatch ps) := by
  simp [specWildcardMatch]

lemma specWildcardMatch_star_zero (ps host : List Char)
    (h : specWildcardMatch ps host = true) :
    specWildcardMatch ('*' :: ps) host = true := by
  rw [specWildcardMatch_star, List.any_eq_true]
  exact ⟨host, mem_starSuffixes_self host, h⟩

lemma specWildcardMatch_star_cons (ps : List Char) (h : Char) (hs : List Char)
    (hdot : h ≠ '.') (hm : specWildcardMatch ('*' :: ps) hs = true) :
    specWildcardMatch ('*' :: ps) (h :: hs) = true := by
  rw [specWildcardMatch_star, List.any_eq_true] at hm ⊢
  obtain ⟨b, hb, hmatch⟩ := hm
  refine ⟨b, ?_, hmatch⟩
  simp only [starSuffixes, if_neg hdot]
  exact List.mem_cons_of_mem _ hb

lemma specWildcardMatch_star_dropWhile (ps : List Char) :
    ∀ host : List Char,
      specWildcardMatch ps (host.dropWhile fun c => c ≠ '.') = true →
      specWildcardMatch ('*' :: ps) host = true := by
  intro host
  induction host with
  | nil =>
    intro h
    exact specWildcardMatch_star_zero ps [] (by simpa using h)
  | cons h hs ih =>
    intro hm
    by_cases hdot : h = '.'
    · subst hdot
      rw [List.dropWhile_cons_of_neg (by simp)] at hm
      exact specWildcardMatch_star_zero ps _ hm
    · rw [List.dropWhile_cons_of_pos (by simpa using hdot)] at hm
      exact specWildcardMatch_star_cons ps h hs hdot (ih hm)

/-- The greedy matcher accepts only pairs the declarative wildcard
relation accepts. -/
lemma matchLoop_sound :
    ∀ pattern host : List Char,
      matchLoop pattern host = true → specWildcardMatch pattern host = true := by
  intro pattern
  induction pattern with
  | nil =>
    intro host hm
    cases host with
    | nil => simp [specWildcardMatch]
    | cons h hs => simp [matchLoop] at hm
  | cons p ps ih =>
    intro host hm
    cases host with
    | nil => simp [matchLoop] at hm
    | cons h hs =>
      by_cases heq : toUpperAscii p = toUpperAscii h
      · rw [matchLoop, if_pos heq] at hm
        have hrest := ih hs hm
        by_cases hp : p = '*'
        · subst hp
          have hdot : h ≠ '.' := by
            intro hd
            rw [hd] at heq
            exact absurd heq (by decide)
          exact specWildcardMatch_star_cons ps h hs hdot
            (specWildcardMatch_star_zero ps hs hrest)
        · rw [specWildcardMatch, if_neg hp]
          simp [heq, hrest]
      · rw [matchLoop, if_neg heq] at hm
        by_cases hp : p = '*'
        · rw [if_pos hp] at hm
          subst hp
          exact specWildcardMatch_star_dropWhile ps (h :: hs) (ih _ hm)
        · rw [if_neg hp] at hm
          exact absurd hm (by simp)

/-- Claim C1: for every legacy enum value other than USE_CTX and every
client/server policy stored in a context, `getVerificationMode()` is the
bitwise OR of the three individually resolved modes, the individual
resolutions follow the mapping table (ALWAYS and VERIFY_REQ_CLIENT_CERT
are PEER|FAIL_IF_NO_PEER_CERT sans/with PEER, IF_PRESENTED and VERIFY are
PEER, and NO_VERIFY, DO_NOT_REQUEST, IGNORE_VERIFY_RESULT contribute zero
bits), and `needsPeerVerification()` is true iff the combined mode is
non-zero. -/
theorem claim_C1 (st : SSLContextState) (vp : SSLVerifyPeerEnum)
    (vc : VerifyClientCertificate) (vs : VerifyServerCertificate)
    (h : vp ≠ SSLVerifyPeerEnum.USE_CTX) :
    getVerificationMode
        { st with verifyPeer := vp, verifyClient := vc, verifyServer := vs } =
      some (getVerificationModeClient vc ||| getVerificationModeServer vs |||
        (getVerificationModePeer vp).getD 0)
    ∧ needsPeerVerification
        { st with verifyPeer := vp, verifyClient := vc, verifyServer := vs } =
      some (decide ((getVerificationModeClient vc |||
        getVerificationModeServer vs |||
        (getVerificationModePeer vp).getD 0) ≠ 0))
    ∧ getVerificationModeClient VerifyClientCertificate.ALWAYS =
        (SSL_VERIFY_PEER ||| SSL_VERIFY_FAIL_IF_NO_PEER_CERT)
    ∧ getVerificationModeClient VerifyClientCertificate.IF_PRESENTED =
        SSL_VERIFY_PEER
    ∧ getVerificationModeClient VerifyClientCertificate.DO_NOT_REQUEST = 0
    ∧ getVerificationModeServer VerifyServerCertificate.IF_PRESENTED =
        SSL_VERIFY_PEER
    ∧ getVerificationModeServer VerifyServerCertificate.IGNORE_VERIFY_RESULT = 0
    ∧ getVerificationModePeer SSLVerifyPeerEnum.VERIFY = some SSL_VERIFY_PEER
    ∧ getVerificationModePeer SSLVerifyPeerEnum.VERIFY_REQ_CLIENT_CERT =
        some (SSL_VERIFY_PEER ||| SSL_VERIFY_FAIL_IF_NO_PEER_CERT)
    ∧ getVerificationModePeer SSLVerifyPeerEnum.NO_VERIFY = some 0 := by
  refine ⟨?_, ?_, by decide, by decide, by decide, by decide, by decide,
    by decide, by decide, by decide⟩ <;>
    cases vp <;>
      first
        | exact absurd rfl h
        | cases vc <;> cases vs <;> rfl

/-- Witness for C1 at VERIFY / ALWAYS / IF_PRESENTED. -/
theorem claim_C1_witness :
    getVerificationMode
        { baseState with
            verifyPeer := SSLVerifyPeerEnum.VERIFY,
            verifyClient := VerifyClientCertificate.ALWAYS,
            verifyServer := VerifyServerCertificate.IF_PRESENTED } =
      some (getVerificationModeClient VerifyClientCertificate.ALWAYS |||
        getVerificationModeServer VerifyServerCertificate.IF_PRESENTED |||
        (getVerificationModePeer SSLVerifyPeerEnum.VERIFY).getD 0) :=
  (claim_C1 baseState SSLVerifyPeerEnum.VERIFY VerifyClientCertificate.ALWAYS
    VerifyServerCertificate.IF_PRESENTED (by decide)).1

/-- Counterexample for C2: at host "ab.c" and pattern "*b.c" the greedy
matcher returns false although the declarative wildcard relation of the
claim (the `*` matching only the "a") keyMatch the whole host. -/
theorem claim_C2_counterexample :
    ¬ (matchName "ab.c".toList "*b.c".toList =
        specWildcardMatch "*b.c".toList "ab.c".toList) := by
  decide

/-- Claim C2 amended: `matchName` is sound for the declarative wildcard
relation — every host/pattern pair it accepts satisfies the claim's
case-insensitive single-level wildcard matching — but not complete, since
the `*` greedily consumes all characters up to the next `.` (and a literal
comparison takes precedence over the wildcard); the three listed example
evaluations hold as stated. -/
theorem claim_C2_amended :
    (∀ host pattern : List Char,
      matchName host pattern = true → specWildcardMatch pattern host = true)
    ∧ matchName "foo.example.com".toList "*.example.com".toList = true
    ∧ matchName "example.com".toList "*.example.com".toList = false
    ∧ matchName "a.b.example.com".toList "*.example.com".toList = false := by
  refine ⟨?_, by decide, by decide, by decide⟩
  intro host pattern hm
  exact matchLoop_sound pattern host hm

/-- Witness for the amended C2 at host "foo.example.com" and pattern
"*.example.com". -/
theorem claim_C2_amended_witness :
    specWildcardMatch "*.example.com".toList "foo.example.com".toList = true :=
  claim_C2_amended.1 "foo.example.com".toList "*.example.com".toList (by decide)

/-- Claim C7: `getVerificationMode(SSLVerifyPeerEnum)` and
`setVerificationOption(SSLVerifyPeerEnum)` reject USE_CTX with a fatal
invalid-argument check instead of resolving it, while every concrete enum
value is accepted. -/
theorem claim_C7 :
    getVerificationModePeer SSLVerifyPeerEnum.USE_CTX = none
    ∧ (∀ st, setVerificationOptionPeer SSLVerifyPeerEnum.USE_CTX st = none)
    ∧ (getVerificationModePeer SSLVerifyPeerEnum.VERIFY).isSome = true
    ∧ (getVerificationModePeer SSLVerifyPeerEnum.VERIFY_REQ_CLIENT_CERT).isSome
        = true
    ∧ (getVerificationModePeer SSLVerifyPeerEnum.NO_VERIFY).isSome = true
    ∧ (∀ st, setVerificationOptionPeer SSLVerifyPeerEnum.VERIFY st =
        some { st with verifyPeer := SSLVerifyPeerEnum.VERIFY }) :=
  ⟨rfl, fun _ => rfl, rfl, rfl, rfl, fun _ => rfl⟩

lemma chainLoop_ok :
    ∀ (fuel : Nat) (chain pending : List Nat), pending.length < fuel →
      chainLoop fuel chain pending = Except.ok (chain ++ pending) := by
  intro fuel
  induction fuel with
  | zero => intro chain pending h; omega
  | succ f ih =>
    intro chain pending h
    cases pending with
    | nil => simp [chainLoop]
    | cons c cs =>
      rw [chainLoop, ih (chain ++ [c]) cs (by simpa using Nat.lt_of_succ_lt_succ h)]
      simp

lemma chainLoop_err :
    ∀ (fuel : Nat) (chain pending : List Nat), fuel ≤ pending.length →
      chainLoop fuel chain pending =
        Except.error
          "loadCertificateFromBufferPEM(): Too many certificates in chain" := by
  intro fuel
  induction fuel with
  | zero => intro chain pending _; rfl
  | succ f ih =>
    intro chain pending h
    cases pending with
    | nil => simp at h
    | cons c cs =>
      rw [chainLoop, ih (chain ++ [c]) cs (by simpa using Nat.succ_le_succ_iff.mp h)]

/-- Claim C3: a PEM buffer parsing to `1 + rest.length` certificates loads
successfully whenever the total count is at most 64 (the failing read after
the last block ends the chain normally), and with 65 or more certificates
the call throws "Too many certificates in chain". -/
theorem claim_C3 (leaf : Nat) (rest : List Nat) (st : SSLContextState) :
    (rest.length ≤ 63 →
      loadCertificateFromBufferPEM (leaf :: rest) st =
        Except.ok { st with cert := some leaf, chain := rest })
    ∧ (64 ≤ rest.length →
      loadCertificateFromBufferPEM (leaf :: rest) st =
        Except.error
          "loadCertificateFromBufferPEM(): Too many certificates in chain") := by
  constructor
  · intro h
    rw [loadCertificateFromBufferPEM,
      chainLoop_ok kMaxCertChain [] rest (by simp [kMaxCertChain]; omega)]
    simp
  · intro h
    rw [loadCertificateFromBufferPEM,
      chainLoop_err kMaxCertChain [] rest (by simpa [kMaxCertChain] using h)]

/-- Witness for C3 at 64 certificates (success) and 65 (failure). -/
theorem claim_C3_witness :
    loadCertificateFromBufferPEM (0 :: List.replicate 63 1) baseState =
      Except.ok { baseState with cert := some 0, chain := List.replicate 63 1 }
    ∧ loadCertificateFromBufferPEM (0 :: List.replicate 64 1) baseState =
      Except.error
        "loadCertificateFromBufferPEM(): Too many certificates in chain" :=
  ⟨(claim_C3 0 (List.replicate 63 1) baseState).1 (by simp),
   (claim_C3 0 (List.replicate 64 1) baseState).2 (by simp)⟩

/-- Claim C4: both combined loaders always perform the cert/key match check
after loading: a mismatching pair makes them throw the mismatch error, a
matching pair loads without it and leaves a state `isCertKeyPairValid`
accepts. -/
theorem claim_C4 (keyMatch : Nat → Nat → Bool) (leaf k : Nat)
    (chain : List Nat) (st : SSLContextState) (hchain : chain.length ≤ 63) :
    (keyMatch leaf k = false →
      loadCertKeyPairFromBufferPEM keyMatch (leaf :: chain) (some k) st =
        Except.error "SSL certificate and private key do not match"
      ∧ loadCertKeyPairFromFiles keyMatch (some "cert.pem") (some "key.pem")
          (some "PEM") (some "PEM") (some leaf) (some k) st =
        Except.error "SSL certificate and private key do not match")
    ∧ (keyMatch leaf k = true →
      (∃ st2, loadCertKeyPairFromBufferPEM keyMatch (leaf :: chain) (some k) st
          = Except.ok st2 ∧ isCertKeyPairValid keyMatch st2 = true)
      ∧ (∃ st2, loadCertKeyPairFromFiles keyMatch (some "cert.pem")
          (some "key.pem") (some "PEM") (some "PEM") (some leaf) (some k) st =
          Except.ok st2 ∧ isCertKeyPairValid keyMatch st2 = true)) := by
  have hcert := (claim_C3 leaf chain st).1 hchain
  constructor
  · intro hm
    constructor
    · rw [loadCertKeyPairFromBufferPEM, hcert]
      simp [loadPrivateKeyFromBufferPEM, isCertKeyPairValid, hm]
    · simp [loadCertKeyPairFromFiles, loadCertificate, loadPrivateKey,
        isCertKeyPairValid, hm]
  · intro hm
    constructor
    · refine ⟨{ st with cert := some leaf, chain := chain, key := some k },
        ?_, ?_⟩
      · rw [loadCertKeyPairFromBufferPEM, hcert]
        simp [loadPrivateKeyFromBufferPEM, isCertKeyPairValid, hm]
      · simp [isCertKeyPairValid, hm]
    · refine ⟨{ st with cert := some leaf, key := some k }, ?_, ?_⟩
      · simp [loadCertKeyPairFromFiles, loadCertificate, loadPrivateKey,
          isCertKeyPairValid, hm]
      · simp [isCertKeyPairValid, hm]

/-- Witness for C4 with the match relation `fun a b => a == b` at a
mismatching pair (cert 0, key 1) and a matching pair (cert 0, key 0). -/
theorem claim_C4_witness :
    loadCertKeyPairFromBufferPEM (fun a b => a == b) [0] (some 1) baseState =
      Except.error "SSL certificate and private key do not match"
    ∧ ∃ st2, loadCertKeyPairFromBufferPEM (fun a b => a == b) [0] (some 0)
        baseState = Except.ok st2
        ∧ isCertKeyPairValid (fun a b => a == b) st2 = true :=
  ⟨((claim_C4 (fun a b => a == b) 0 1 [] baseState (by simp)).1 (by decide)).1,
   ((claim_C4 (fun a b => a == b) 0 0 [] baseState (by simp)).2 (by decide)).1⟩

lemma encodeProtos_none_of_oversized (ps : List (List Nat))
    (h : (ps.any fun p => 256 ≤ p.length) = true) : encodeProtos ps = none := by
  induction ps with
  | nil => simp at h
  | cons p rest ih =>
    rw [encodeProtos]
    by_cases hp : 256 ≤ p.length
    · rw [if_pos hp]
    · rw [if_neg hp, ih ?_]
      simp only [List.any_cons, Bool.or_eq_true, decide_eq_true_eq] at h
      rcases h with h | h
      · exact absurd h hp
      · exact h

lemma buildItems_none_of_oversized (items : List NextProtocolsItem)
    (h : hasOversizedName items = true) : buildItems items = none := by
  induction items with
  | nil => simp [hasOversizedName] at h
  | cons item rest ih =>
    simp only [hasOversizedName, List.any_cons, Bool.or_eq_true] at h
    rw [buildItems]
    by_cases he : item.protocols.isEmpty
    · rw [if_pos he]
      rcases h with h | h
      · rw [List.isEmpty_iff] at he
        rw [he] at h
        simp at h
      · exact ih h
    · rw [if_neg he]
      rcases h with h | h
      · rw [encodeProtos_none_of_oversized item.protocols h]
      · rw [ih h]
        cases encodeProtos item.protocols <;> rfl

lemma buildItems_sum (items : List NextProtocolsItem) :
    ∀ bufs ws, buildItems items = some (bufs, ws) →
      ws.sum = keptWeightSum items := by
  induction items with
  | nil =>
    intro bufs ws h
    simp [buildItems] at h
    simp [h.2.symm, keptWeightSum]
  | cons item rest ih =>
    intro bufs ws h
    rw [buildItems] at h
    by_cases he : item.protocols.isEmpty
    · rw [if_pos he] at h
      rw [ih bufs ws h]
      simp [keptWeightSum, List.filter_cons, he]
    · rw [if_neg he] at h
      cases henc : encodeProtos item.protocols with
      | none => rw [henc] at h; simp at h
      | some buf =>
        rw [henc] at h
        cases hrest : buildItems rest with
        | none => rw [hrest] at h; simp at h
        | some pr =>
          obtain ⟨bufs0, ws0⟩ := pr
          rw [hrest] at h
          simp only [Option.some.injEq, Prod.mk.injEq] at h
          rw [← h.2]
          simp only [List.sum_cons, ih bufs0 ws0 hrest]
          simp [keptWeightSum, List.filter_cons, he]

/-- Claim C5: if any protocol name has byte length at least 256, the call
returns false and leaves the advertisement fully disabled — no buffers or
weights survive and `getAdvertisedNextProtocols()` is empty. -/
theorem claim_C5 (items : List NextProtocolsItem) (st : SSLContextState)
    (h : hasOversizedName items = true) :
    (setRandomizedAdvertisedNextProtocols items st).1 = false
    ∧ (setRandomizedAdvertisedNextProtocols items st).2.advertisedNextProtocols
        = []
    ∧ (setRandomizedAdvertisedNextProtocols items
        st).2.advertisedNextProtocolWeights = []
    ∧ getAdvertisedNextProtocols
        (setRandomizedAdvertisedNextProtocols items st).2 = [] := by
  have hne : items.isEmpty = false := by
    cases items with
    | nil => simp [hasOversizedName] at h
    | cons a l => rfl
  have hb := buildItems_none_of_oversized items h
  simp [setRandomizedAdvertisedNextProtocols, hne, hb,
    deleteNextProtocolsStrings, unsetNextProtocols, getAdvertisedNextProtocols]

set_option maxRecDepth 2000 in
/-- Witness for C5 at a single group holding one 256-byte name. -/
theorem claim_C5_witness :
    (setRandomizedAdvertisedNextProtocols
      [⟨1, [List.replicate 256 0]⟩] baseState).1 = false
    ∧ getAdvertisedNextProtocols
        (setRandomizedAdvertisedNextProtocols
          [⟨1, [List.replicate 256 0]⟩] baseState).2 = [] :=
  ⟨(claim_C5 [⟨1, [List.replicate 256 0]⟩] baseState
      (by decide)).1,
   (claim_C5 [⟨1, [List.replicate 256 0]⟩] baseState
      (by decide)).2.2.2⟩

/-- Claim C6: an empty item list, or a zero total weight over the kept
groups (groups with an empty protocol list are skipped), makes the call
return false with negotiation left disabled. -/
theorem claim_C6 (items : List NextProtocolsItem) (st : SSLContextState)
    (h : items = [] ∨ keptWeightSum items = 0) :
    (setRandomizedAdvertisedNextProtocols items st).1 = false
    ∧ (setRandomizedAdvertisedNextProtocols items st).2.advertisedNextProtocols
        = []
    ∧ (setRandomizedAdvertisedNextProtocols items
        st).2.advertisedNextProtocolWeights = []
    ∧ (setRandomizedAdvertisedNextProtocols items
        st).2.alpnSelectCbRegistered = false
    ∧ (setRandomizedAdvertisedNextProtocols items st).2.alpnProtos = [] := by
  rcases h with h | h
  · subst h
    simp [setRandomizedAdvertisedNextProtocols, unsetNextProtocols]
  · cases hitems : items with
    | nil =>
      simp [setRandomizedAdvertisedNextProtocols, unsetNextProtocols]
    | cons a l =>
      rw [← hitems]
      have hne : items.isEmpty = false := by rw [hitems]; rfl
      cases hb : buildItems items with
      | none =>
        simp [setRandomizedAdvertisedNextProtocols, hne, hb,
          deleteNextProtocolsStrings, unsetNextProtocols]
      | some pr =>
        obtain ⟨bufs, ws⟩ := pr
        have hsum : ws.sum = 0 := by rw [buildItems_sum items bufs ws hb, h]
        simp [setRandomizedAdvertisedNextProtocols, hne, hb, hsum,
          deleteNextProtocolsStrings, unsetNextProtocols]

/-- Witness for C6 at a single group of weight 0 with the non-empty name
list [ "a" ]. -/
theorem claim_C6_witness :
    (setRandomizedAdvertisedNextProtocols [⟨0, [[97]]⟩] baseState).1 = false
    ∧ (setRandomizedAdvertisedNextProtocols
        [⟨0, [[97]]⟩] baseState).2.alpnSelectCbRegistered = false :=
  ⟨(claim_C6 [⟨0, [[97]]⟩] baseState (Or.inr (by decide))).1,
   (claim_C6 [⟨0, [[97]]⟩] baseState (Or.inr (by decide))).2.2.2.1⟩

/-- Claim C8: `loadClientCAList` never raises — a native load failure leaves
the context unchanged, a success records the list — while `loadCertificate`,
`loadPrivateKey` and the path overload of `loadTrustedCertificates` throw on
native failure. -/
theorem claim_C8 (st : SSLContextState) :
    loadClientCAList none st = st
    ∧ (∀ cas, loadClientCAList (some cas) st =
        { st with clientCAList := some cas })
    ∧ (∀ p, loadCertificate (some p) (some "PEM") none st =
        Except.error ("SSL_CTX_use_certificate_chain_file: " ++ p))
    ∧ (∀ p, loadPrivateKey (some p) (some "PEM") none st =
        Except.error "SSL_CTX_use_PrivateKey_file")
    ∧ (∀ p, loadTrustedCertificates (some p) false st =
        Except.error "SSL_CTX_load_verify_locations") :=
  ⟨rfl, fun _ => rfl, fun _ => rfl, fun _ => rfl, fun _ => rfl⟩

/-- Claim C9: `unsetNextProtocols` is idempotent — a second call on the
already-cleared state changes nothing. -/
theorem claim_C9 (st : SSLContextState) :
    unsetNextProtocols (unsetNextProtocols st) = unsetNextProtocols st := rfl

/-- Counterexample for C10: the `SSL_CTX`-adopting constructor never
installs an accept runner, so right after construction the accessor
returns null. -/
theorem claim_C10_counterexample :
    (sslAcceptRunnerGet adoptSSLContext).isSome = false := rfl

/-- Claim C10 amended: for a context built with the `SSLVersion`
constructor the accept runner is non-null from the end of construction
onward — the constructor installs the default inline runner and
`sslAcceptRunner(nullptr)` keeps the previously installed runner — but the
`SSL_CTX`-adopting constructor leaves the runner null. -/
theorem claim_C10_amended :
    (∀ version st, mkSSLContext version = Except.ok st →
      (sslAcceptRunnerGet st).isSome = true)
    ∧ (∀ st, sslAcceptRunnerSet none st = st)
    ∧ (∀ runner st, (sslAcceptRunnerGet st).isSome = true →
      (sslAcceptRunnerGet (sslAcceptRunnerSet runner st)).isSome = true) := by
  refine ⟨?_, fun st => rfl, ?_⟩
  · intro version st h
    cases version <;> simp [mkSSLContext] at h <;> simp [sslAcceptRunnerGet, ← h]
  · intro runner st h
    cases runner with
    | none => exact h
    | some r => rfl

/-- Witness for the amended C10: the default constructor's runner is
non-null, and replacing it keeps it non-null. -/
theorem claim_C10_witness :
    (sslAcceptRunnerGet { baseState with
      checkPeerName := false, sslAcceptRunner := some 0 }).isSome = true
    ∧ (sslAcceptRunnerGet (sslAcceptRunnerSet (some 5)
        { baseState with
          checkPeerName := false, sslAcceptRunner := some 0 })).isSome = true :=
  ⟨claim_C10_amended.1 SSLVersion.TLSv1_2 _ rfl,
   claim_C10_amended.2.2 (some 5) _ rfl⟩

end FollySSL
